import Mathlib

set_option maxHeartbeats 1000000
set_option linter.unusedVariables false

namespace CodeRunner

/-! Shallow embedding of the code-runner backend (src/backend/main.go).
The repository holds three concatenated backend variants; the surviving
one (the middle variant, with `config`, `languages`, `executeDocker`,
`executeNative` and `wsHandler`) is embedded at top level, and the legacy
first variant's `limitedWriter` (the one with a `truncated` flag) is
embedded in namespace `B1`. -/

/-! Constants from the surviving backend's `config` literal and the legacy
constants block (they agree on all four values). -/

def MaxCodeSize : Nat := 64 * 1024
def MaxStdinSize : Nat := 1024 * 1024
def MaxOutputSize : Nat := 1024 * 1024
def MaxConcurrent : Nat := 3

/-- Byte view of a Go string literal (ASCII code points, one per byte). -/
def strBytes (s : String) : List Nat := s.toList.map Char.toNat

/-! Admission gate.  `rateLimiter` maps a peer to an int counter guarded by
a mutex; all claims are per-peer, so the model is the counter of one fixed
peer.  The counter is modelled as `Int` (Go `int`) so that "never goes
below zero" is a real statement and not a typing artifact. -/

/-- Go `acquireSlot` (surviving variant, same logic as the legacy one):
refuse when the counter is at or above `MaxConcurrent`, else increment. -/
def acquireSlot (c : Int) : Int × Bool :=
  if c ≥ (MaxConcurrent : Int) then (c, false) else (c + 1, true)

/-- Go `releaseSlot`: decrement only when the counter is positive. -/
def releaseSlot (c : Int) : Int :=
  if c > 0 then c - 1 else c

/-- One mutex-protected operation on the per-peer counter. -/
inductive SlotOp where
  | acquire
  | release
deriving DecidableEq, Repr

/-- Effect of one operation on the counter. -/
def slotStep (c : Int) (op : SlotOp) : Int :=
  match op with
  | .acquire => (acquireSlot c).1
  | .release => releaseSlot c

/-- Counter after a finite interleaving of acquire/release calls. -/
def slotRun (c : Int) (ops : List SlotOp) : Int := ops.foldl slotStep c

/-- Counter paired with the number of successful acquires so far. -/
def slotStepS (p : Int × Nat) (op : SlotOp) : Int × Nat :=
  match op with
  | .acquire => if (acquireSlot p.1).2 then (p.1 + 1, p.2 + 1) else p
  | .release => (releaseSlot p.1, p.2)

/-- Run from the zero state, tracking successful acquires. -/
def slotRunS (ops : List SlotOp) : Int × Nat := ops.foldl slotStepS (0, 0)

/-- Number of acquire calls that returned true along the trace. -/
def succCount (ops : List SlotOp) : Nat := (slotRunS ops).2

/-- Number of release calls in the trace. -/
def relCount (ops : List SlotOp) : Nat := ops.count .release

/-- Handler-shaped traces: a handler calls `releaseSlot` only after its own
successful `acquireSlot`, so in every prefix the releases are at most the
successful acquires. -/
def wfTrace (ops : List SlotOp) : Prop :=
  ∀ n, n ≤ ops.length → relCount (List.take n ops) ≤ succCount (List.take n ops)

lemma slotStepS_fst (p : Int × Nat) (op : SlotOp) :
    (slotStepS p op).1 = slotStep p.1 op := by
  cases op <;> simp only [slotStepS, slotStep, acquireSlot]
  split <;> simp_all

lemma foldl_slotStepS_fst (ops : List SlotOp) :
    ∀ p : Int × Nat, (ops.foldl slotStepS p).1 = ops.foldl slotStep p.1 := by
  induction ops with
  | nil => intro p; rfl
  | cons op ops ih =>
      intro p
      simp only [List.foldl_cons]
      rw [ih, slotStepS_fst]

lemma slotRunS_fst (ops : List SlotOp) : (slotRunS ops).1 = slotRun 0 ops :=
  foldl_slotStepS_fst ops (0, 0)

lemma slot_bounds (ops : List SlotOp) :
    ∀ c : Int, 0 ≤ c → c ≤ (MaxConcurrent : Int) →
      0 ≤ ops.foldl slotStep c ∧ ops.foldl slotStep c ≤ (MaxConcurrent : Int) := by
  induction ops with
  | nil => intro c h0 h3; exact ⟨h0, h3⟩
  | cons op ops ih =>
      intro c h0 h3
      have hstep : 0 ≤ slotStep c op ∧ slotStep c op ≤ (MaxConcurrent : Int) := by
        cases op <;>
          simp only [slotStep, acquireSlot, releaseSlot, MaxConcurrent] at * <;>
          split <;> omega
      simpa using ih (slotStep c op) hstep.1 hstep.2

lemma wfTrace_append_left (ops : List SlotOp) (op : SlotOp)
    (h : wfTrace (ops ++ [op])) : wfTrace ops := by
  intro n hn
  have h' := h n (by simp; omega)
  rwa [List.take_append_eq_append_take, Nat.sub_eq_zero_of_le hn,
    List.take_zero, List.append_nil] at h'

lemma slot_conservation :
    ∀ ops : List SlotOp, wfTrace ops →
      (slotRunS ops).1 = (succCount ops : Int) - (relCount ops : Int) := by
  intro ops
  induction ops using List.reverseRecOn with
  | nil => intro _; simp [slotRunS, succCount, relCount]
  | append_singleton ops op ih =>
      intro hwf
      have ihv := ih (wfTrace_append_left ops op hwf)
      have hfold : slotRunS (ops ++ [op]) = slotStepS (slotRunS ops) op := by
        simp [slotRunS, List.foldl_append]
      cases op with
      | acquire =>
          have hrel : relCount (ops ++ [SlotOp.acquire]) = relCount ops := by
            simp [relCount, List.count_append]
          by_cases hge : (MaxConcurrent : Int) ≤ (slotRunS ops).1
          · have hstep : slotStepS (slotRunS ops) SlotOp.acquire = slotRunS ops := by
              have hf : (acquireSlot (slotRunS ops).1).2 = false := by
                simp [acquireSlot, hge]
              simp [slotStepS, hf]
            have hsucc : succCount (ops ++ [SlotOp.acquire]) = succCount ops := by
              unfold succCount
              rw [hfold, hstep]
            rw [hfold, hstep, hsucc, hrel]
            exact ihv
          · have hstep : slotStepS (slotRunS ops) SlotOp.acquire =
                ((slotRunS ops).1 + 1, (slotRunS ops).2 + 1) := by
              have hf : (acquireSlot (slotRunS ops).1).2 = true := by
                simp [acquireSlot, hge]
              simp [slotStepS, hf]
            have hsucc : succCount (ops ++ [SlotOp.acquire]) = succCount ops + 1 := by
              unfold succCount
              rw [hfold, hstep]
            rw [hfold, hstep, hsucc, hrel]
            dsimp only
            rw [ihv]
            push_cast
            ring
      | release =>
          have hrel : relCount (ops ++ [SlotOp.release]) = relCount ops + 1 := by
            simp [relCount, List.count_append]
          have hstep0 : slotStepS (slotRunS ops) SlotOp.release =
              (releaseSlot (slotRunS ops).1, (slotRunS ops).2) := by
            simp [slotStepS]
          have hsucc : succCount (ops ++ [SlotOp.release]) = succCount ops := by
            unfold succCount
            rw [hfold, hstep0]
          have hfull := hwf ((ops ++ [SlotOp.release]).length) (le_refl _)
          rw [List.take_length, hrel, hsucc] at hfull
          have hpos : (0 : Int) < (slotRunS ops).1 := by
            rw [ihv]
            have h1 : relCount ops + 1 ≤ succCount ops := hfull
            omega
          rw [hfold, hstep0, hsucc, hrel]
          dsimp only
          rw [releaseSlot, if_pos hpos, ihv]
          push_cast
          ring

/-- C1: for every finite interleaving of acquireSlot/releaseSlot calls of one
peer, starting from the zero counter: the counter stays within `[0, MaxConcurrent]`;
`acquireSlot` refuses (returns false, without waiting — it is a plain counter
test under the mutex) exactly when the counter is at the cap; and on a
handler-shaped trace (every release preceded by its own successful acquire)
whose releases exactly balance its successful acquires — i.e. after the last
session of the peer has ended — the counter is back to 0. -/
theorem admission_gate_C1 (ops : List SlotOp) :
    (0 ≤ slotRun 0 ops ∧ slotRun 0 ops ≤ (MaxConcurrent : Int)) ∧
    ((acquireSlot (slotRun 0 ops)).2 = false ↔ slotRun 0 ops = (MaxConcurrent : Int)) ∧
    (wfTrace ops → relCount ops = succCount ops → slotRun 0 ops = 0) := by
  obtain ⟨hb1, hb2⟩ := slot_bounds ops 0 (by omega) (by simp [MaxConcurrent])
  have hrun : slotRun 0 ops = List.foldl slotStep 0 ops := rfl
  refine ⟨⟨by rw [hrun]; exact hb1, by rw [hrun]; exact hb2⟩, ?_, ?_⟩
  · rw [hrun]
    constructor
    · intro hfalse
      simp only [acquireSlot] at hfalse
      split at hfalse
      next h => omega
      next h => simp at hfalse
    · intro heq
      simp [acquireSlot, heq]
  · intro hwf hbal
    have hc := slot_conservation ops hwf
    rw [slotRunS_fst] at hc
    rw [hc, hbal]
    ring

/-- Concrete run for admission_gate_C1: three acquires succeed, a fourth is
refused at the cap, three releases bring the counter back to zero. -/
def c1Ops : List SlotOp :=
  [.acquire, .acquire, .acquire, .acquire, .release, .release, .release]

theorem admission_gate_C1_witness : slotRun 0 c1Ops = 0 :=
  (admission_gate_C1 c1Ops).2.2 (by unfold wfTrace; decide) (by decide)

/-! Bounded writer.  The legacy backend's `limitedWriter` (with a `truncated`
flag) lives in namespace `B1`; the surviving backend's `limitedWriter`
(identical logic, no flag) is defined afterwards at top level.  The wrapped
sink is a `bytes.Buffer`, which always accepts the full slice with a nil
error, so `w.Write(p)` is modelled as appending `p` and returning `len p`. -/

namespace B1

/-- Legacy `limitedWriter` struct: cap, bytes delivered so far, truncation
flag, and the bytes accumulated in the wrapped buffer. -/
structure limitedWriter where
  limit : Nat
  written : Nat
  truncated : Bool
  out : List Nat
deriving Repr, DecidableEq

/-- Legacy `(lw *limitedWriter).Write`: at or past the cap, set the flag and
pretend the whole slice was written; otherwise clip the slice to the
remaining capacity (setting the flag when clipping) and deliver it. -/
def limitedWriter.Write (lw : limitedWriter) (p : List Nat) : limitedWriter × Nat :=
  if lw.written ≥ lw.limit then
    ({ lw with truncated := true }, p.length)
  else
    if p.length > lw.limit - lw.written then
      let q := p.take (lw.limit - lw.written)
      ({ lw with out := lw.out ++ q, written := lw.written + q.length, truncated := true },
        q.length)
    else
      ({ lw with out := lw.out ++ p, written := lw.written + p.length }, p.length)

/-- Fresh writer as built at the call sites: `&limitedWriter{w: ..., limit: L}`. -/
def lwInit (L : Nat) : limitedWriter := ⟨L, 0, false, []⟩

/-- Run a sequence of Write calls; final state plus per-call return values. -/
def writeTrace : limitedWriter → List (List Nat) → limitedWriter × List Nat
  | lw, [] => (lw, [])
  | lw, p :: ps =>
      let r := lw.Write p
      let t := writeTrace r.1 ps
      (t.1, r.2 :: t.2)

/-- State invariant of the legacy writer, relating the writer to the bytes
`consumed` so far by the upstream producer. -/
def Inv (L : Nat) (lw : limitedWriter) (consumed : List Nat) : Prop :=
  lw.limit = L ∧ lw.written = lw.out.length ∧ lw.written ≤ L ∧
  lw.out = consumed.take L ∧
  (lw.truncated = false → consumed.length = lw.written) ∧
  (lw.truncated = true → lw.written = L)

lemma inv_init (L : Nat) : Inv L (lwInit L) [] := by
  refine ⟨rfl, rfl, by simp [lwInit], by simp [lwInit], fun _ => rfl, fun h => ?_⟩
  simp [lwInit] at h

lemma inv_write (L : Nat) (lw : limitedWriter) (consumed p : List Nat)
    (h : Inv L lw consumed) : Inv L (lw.Write p).1 (consumed ++ p) := by
  obtain ⟨hL, hwl, hle, hout, hnt, htr⟩ := h
  by_cases hge : lw.written ≥ lw.limit
  · -- at the cap already: nothing delivered, flag set
    have hwL : lw.written = L := by omega
    have houtlen : lw.out.length = L := by omega
    have hclen : L ≤ consumed.length := by
      have := congrArg List.length hout
      simp [List.length_take] at this
      omega
    have htake : (consumed ++ p).take L = consumed.take L := by
      rw [List.take_append_eq_append_take, Nat.sub_eq_zero_of_le hclen]
      simp
    simp only [limitedWriter.Write, if_pos hge]
    exact ⟨hL, hwl, hle, by rw [htake]; exact hout, by simp, fun _ => hwL⟩
  · push_neg at hge
    have hnof : lw.truncated = false := by
      cases hcase : lw.truncated
      · rfl
      · exact absurd (htr hcase) (by omega)
    have hclen : consumed.length = lw.written := hnt hnof
    have houtc : lw.out = consumed := by
      rw [hout, List.take_of_length_le (by omega)]
    by_cases hbig : p.length > lw.limit - lw.written
    · -- the call that crosses the cap: deliver the remaining capacity
      have hqlen : (p.take (lw.limit - lw.written)).length = lw.limit - lw.written := by
        simp [List.length_take]
        omega
      have htake : (consumed ++ p).take L =
          consumed ++ p.take (L - consumed.length) := by
        rw [List.take_append_eq_append_take,
          List.take_of_length_le (by omega : consumed.length ≤ L)]
      simp only [limitedWriter.Write, if_neg (by omega : ¬ lw.written ≥ lw.limit),
        if_pos hbig]
      refine ⟨hL, ?_, ?_, ?_, by simp, ?_⟩
      · simp [hqlen, hwl]
      · simp [hqlen]; omega
      · rw [htake, houtc, hclen, hL]
      · intro _
        simp [hqlen]
        omega
    · -- within capacity: deliver everything
      have hfits : consumed.length + p.length ≤ L := by omega
      have htake : (consumed ++ p).take L = consumed ++ p := by
        rw [List.take_of_length_le (by simp; omega)]
      simp only [limitedWriter.Write, if_neg (by omega : ¬ lw.written ≥ lw.limit),
        if_neg hbig]
      refine ⟨hL, by simp [hwl], by simp; omega, by rw [htake, houtc], ?_, ?_⟩
      · intro h
        simp at h ⊢
        omega
      · intro h
        simp at h
        exact absurd (htr h) (by omega)

lemma inv_writeTrace (L : Nat) :
    ∀ (ps : List (List Nat)) (lw : limitedWriter) (consumed : List Nat),
      Inv L lw consumed → Inv L (writeTrace lw ps).1 (consumed ++ ps.flatten) := by
  intro ps
  induction ps with
  | nil => intro lw consumed h; simpa using h
  | cons p ps ih =>
      intro lw consumed h
      have h1 := inv_write L lw consumed p h
      have h2 := ih (lw.Write p).1 (consumed ++ p) h1
      simpa [writeTrace, List.append_assoc] using h2

/-- Final delivered bytes of a write sequence: exactly the first `L` bytes
of the concatenated input. -/
lemma writeTrace_out (L : Nat) (ps : List (List Nat)) :
    (writeTrace (lwInit L) ps).1.out = ps.flatten.take L := by
  have h := inv_writeTrace L ps (lwInit L) [] (inv_init L)
  simpa using h.2.2.2.1

lemma writeTrace_out_le (L : Nat) (ps : List (List Nat)) :
    (writeTrace (lwInit L) ps).1.out.length ≤ L := by
  rw [writeTrace_out]
  simp [List.length_take]

/-- Dropping at least one byte sets the flag. -/
lemma writeTrace_truncated (L : Nat) (ps : List (List Nat))
    (h : ps.flatten.length > L) : (writeTrace (lwInit L) ps).1.truncated = true := by
  have hinv := inv_writeTrace L ps (lwInit L) [] (inv_init L)
  obtain ⟨-, -, hle, -, hnt, -⟩ := hinv
  cases hcase : (writeTrace (lwInit L) ps).1.truncated
  · have h2 := hnt hcase
    simp only [List.nil_append] at h2
    omega
  · rfl

/-- As long as the concatenated input fits under the cap and no Write call
passes an empty slice (process pipes never produce zero-length reads), the
flag stays clear and everything is delivered verbatim. -/
lemma writeTrace_no_trunc (L : Nat) :
    ∀ (ps : List (List Nat)) (lw : limitedWriter),
      lw.limit = L → lw.truncated = false →
      lw.written + ps.flatten.length ≤ L → (∀ c ∈ ps, c ≠ []) →
      (writeTrace lw ps).1.truncated = false ∧
      (writeTrace lw ps).1.out = lw.out ++ ps.flatten := by
  intro ps
  induction ps with
  | nil => intro lw h1 h2 h3 h4; exact ⟨h2, by simp [writeTrace]⟩
  | cons p ps ih =>
      intro lw hL hf hfit hne
      have hpne : p ≠ [] := hne p (by simp)
      have hppos : 0 < p.length := List.length_pos.mpr hpne
      have hflat : (p :: ps).flatten.length = p.length + ps.flatten.length := by
        rw [List.flatten_cons, List.length_append]
      rw [hflat] at hfit
      have hlt : lw.written < lw.limit := by omega
      have hsmall : ¬ p.length > lw.limit - lw.written := by omega
      have hstep : lw.Write p =
          ({ lw with out := lw.out ++ p, written := lw.written + p.length }, p.length) := by
        simp only [limitedWriter.Write, if_neg (by omega : ¬ lw.written ≥ lw.limit),
          if_neg hsmall]
      have := ih { lw with out := lw.out ++ p, written := lw.written + p.length }
        (by simpa using hL) (by simpa using hf)
        (by dsimp only; omega) (fun c hc => hne c (by simp [hc]))
      refine ⟨?_, ?_⟩
      · simpa [writeTrace, hstep] using this.1
      · have h2 := this.2
        simp only [writeTrace, hstep] at *
        rw [h2]
        simp [List.append_assoc]

end B1

/-- Surviving backend's `limitedWriter` struct (no truncation flag). -/
structure limitedWriter where
  limit : Nat
  written : Nat
  out : List Nat
deriving Repr, DecidableEq

/-- Surviving `(lw *limitedWriter).Write`: same clipping logic as the legacy
writer, without recording truncation. -/
def limitedWriter.Write (lw : limitedWriter) (p : List Nat) : limitedWriter × Nat :=
  if lw.written ≥ lw.limit then
    (lw, p.length)
  else
    if p.length > lw.limit - lw.written then
      let q := p.take (lw.limit - lw.written)
      ({ lw with out := lw.out ++ q, written := lw.written + q.length }, q.length)
    else
      ({ lw with out := lw.out ++ p, written := lw.written + p.length }, p.length)

/-- Fresh surviving writer: `&limitedWriter{w: &buf, limit: L}`. -/
def lwInit (L : Nat) : limitedWriter := ⟨L, 0, []⟩

/-- Run a sequence of Write calls on the surviving writer. -/
def writeTrace : limitedWriter → List (List Nat) → limitedWriter × List Nat
  | lw, [] => (lw, [])
  | lw, p :: ps =>
      let r := lw.Write p
      let t := writeTrace r.1 ps
      (t.1, r.2 :: t.2)

/-- Forget the legacy writer's flag. -/
def projB1 (lw : B1.limitedWriter) : limitedWriter := ⟨lw.limit, lw.written, lw.out⟩

lemma Write_projB1 (lw : B1.limitedWriter) (p : List Nat) :
    (projB1 lw).Write p = (projB1 (lw.Write p).1, (lw.Write p).2) := by
  simp only [limitedWriter.Write, B1.limitedWriter.Write, projB1]
  split
  · rfl
  · split <;> rfl

lemma writeTrace_projB1 :
    ∀ (ps : List (List Nat)) (lw : B1.limitedWriter),
      writeTrace (projB1 lw) ps =
        (projB1 (B1.writeTrace lw ps).1, (B1.writeTrace lw ps).2) := by
  intro ps
  induction ps with
  | nil => intro lw; rfl
  | cons p ps ih =>
      intro lw
      simp only [writeTrace, B1.writeTrace, Write_projB1, ih]

/-- Surviving writer delivers exactly the first `L` bytes of the input. -/
lemma core_writeTrace_out (L : Nat) (ps : List (List Nat)) :
    (writeTrace (lwInit L) ps).1.out = ps.flatten.take L := by
  have hinit : lwInit L = projB1 (B1.lwInit L) := rfl
  rw [hinit, writeTrace_projB1]
  simpa [projB1] using B1.writeTrace_out L ps

/-- C2 counterexample: a single Write of 5 bytes on a fresh writer with cap 4
(the call on which the cap is first reached) returns 4, not its full argument
length 5 — refuting the claim that every Write call, including the one on
which the cap is first reached, reports its argument as fully consumed. -/
theorem bounded_writer_C2_counterexample :
    ((B1.lwInit 4).Write [9, 9, 9, 9, 9]).2 = 4 ∧
    ([9, 9, 9, 9, 9] : List Nat).length = 5 := by
  decide

/-- C2 (amended): for every Write sequence on a Bounded Writer with cap `L`:
the sink receives exactly the first `L` bytes of the concatenated input (so
at most `L` bytes total); once at least one byte has been dropped the
`truncated` flag is set; a Write that begins at or beyond the cap returns its
full argument length with every byte discarded and sets the flag; but the
Write on which the cap is first crossed returns only the number of bytes it
actually delivered (the remaining capacity), not its full argument length. -/
theorem bounded_writer_C2 (L : Nat) (ps : List (List Nat)) :
    ((B1.writeTrace (B1.lwInit L) ps).1.out = ps.flatten.take L) ∧
    ((B1.writeTrace (B1.lwInit L) ps).1.out.length ≤ L) ∧
    (ps.flatten.length > L → (B1.writeTrace (B1.lwInit L) ps).1.truncated = true) ∧
    (∀ lw : B1.limitedWriter, ∀ p : List Nat, lw.written ≥ lw.limit →
       (lw.Write p).2 = p.length ∧ (lw.Write p).1.out = lw.out ∧
       (lw.Write p).1.truncated = true) ∧
    (∀ lw : B1.limitedWriter, ∀ p : List Nat, lw.written < lw.limit →
       p.length > lw.limit - lw.written →
       (lw.Write p).2 = lw.limit - lw.written ∧ (lw.Write p).1.truncated = true) := by
  refine ⟨B1.writeTrace_out L ps, B1.writeTrace_out_le L ps,
    B1.writeTrace_truncated L ps, ?_, ?_⟩
  · intro lw p hge
    simp [B1.limitedWriter.Write, hge]
  · intro lw p hlt hbig
    have hne : ¬ lw.written ≥ lw.limit := by omega
    refine ⟨?_, ?_⟩
    · simp [B1.limitedWriter.Write, hne, hbig, List.length_take]
      omega
    · simp [B1.limitedWriter.Write, hne, hbig]

/-- Concrete run for bounded_writer_C2: dropping a byte sets the flag, a Write
at the cap reports its byte as consumed, and the crossing Write returns 4. -/
theorem bounded_writer_C2_witness :
    (B1.writeTrace (B1.lwInit 4) [[1, 1], [2, 2, 2]]).1.truncated = true ∧
    ((⟨4, 4, true, [1, 1, 1, 1]⟩ : B1.limitedWriter).Write [7]).2 = 1 ∧
    ((B1.lwInit 4).Write [9, 9, 9, 9, 9]).2 = 4 :=
  ⟨(bounded_writer_C2 4 [[1, 1], [2, 2, 2]]).2.2.1 (by decide),
   ((bounded_writer_C2 4 []).2.2.2.1 ⟨4, 4, true, [1, 1, 1, 1]⟩ [7] (by decide)).1,
   by
     have h := ((bounded_writer_C2 4 []).2.2.2.2 (B1.lwInit 4) [9, 9, 9, 9, 9]
       (by decide) (by decide)).1
     simpa [B1.lwInit] using h⟩

/-! Language registry and execution paths of the surviving backend.
Byte strings (code, stdin, outputs, error messages) are `List Nat`; tags,
filenames and argv entries stay `String`. -/

/-- One row of the `languages` map: `LangConfig` struct. -/
structure LangConfig where
  Filename : String
  Image : String
  Compile : String
  Run : String
  Timeout : Nat
deriving Repr, DecidableEq

/-- Registry row for the python tag. -/
def pyLang : LangConfig := ⟨"main.py", "runner-python", "", "python3 main.py", 5⟩

/-- Registry row for the javascript tag. -/
def jsLang : LangConfig := ⟨"main.js", "runner-js", "", "node main.js", 5⟩

/-- Registry row for the go tag. -/
def goLang : LangConfig := ⟨"main.go", "runner-go", "go build -o /tmp/prog main.go", "/tmp/prog", 10⟩

/-- Registry row for the cpp tag. -/
def cppLang : LangConfig := ⟨"main.cpp", "runner-cpp", "g++ -O2 -o /tmp/prog main.cpp", "/tmp/prog", 10⟩

/-- Registry row for the java tag. -/
def javaLang : LangConfig := ⟨"Main.java", "runner-java", "javac -d /tmp Main.java", "java -cp /tmp Main", 10⟩

/-- The `languages` map literal (timeouts in seconds). -/
def languages : List (String × LangConfig) :=
  [("python", pyLang), ("javascript", jsLang), ("go", goLang),
   ("cpp", cppLang), ("java", javaLang)]

/-- Go `lang, ok := languages[tag]`. -/
def lookupLang (tag : String) : Option LangConfig :=
  languages.lookup tag

/-- Batch request body. -/
structure RunRequest where
  Language : String
  Code : List Nat
  Stdin : List Nat
deriving Repr, DecidableEq

/-- Batch response body (surviving variant, with `Success`). -/
structure RunResponse where
  Stdout : List Nat
  Stderr : List Nat
  Success : Bool
deriving Repr, DecidableEq

/-- Oracle for the external effects of one execution: results of
`os.MkdirTemp`, `os.WriteFile`, the chunks produced by the sandbox on each
output pipe, and the error (if any) returned by `cmd.Run` — `none` means a
nil error; a `some` message is the non-empty Go error string (timeout kill,
nonzero exit, runtime failure). -/
structure ExecEnv where
  mkdirErr : Option (List Nat)
  writeErr : Option (List Nat)
  stdoutChunks : List (List Nat)
  stderrChunks : List (List Nat)
  runErr : Option (List Nat)
  tmpPath : String
deriving Repr, DecidableEq

/-- Result of one execution together with the effects the session performed:
whether the workspace directory was created and whether a child process was
spawned, plus the argv and context timeout it would be spawned with. -/
structure ExecResult where
  resp : RunResponse
  wsCreated : Bool
  spawned : Bool
  argv : List String
  timeoutUsed : Nat
deriving Repr, DecidableEq

/-- `runCmd := lang.Run`, prefixed by the compile step when one exists. -/
def runCmdOf (lang : LangConfig) : String :=
  if lang.Compile = "" then lang.Run else lang.Compile ++ " && " ++ lang.Run

/-- Argument list of the hardened `docker run` invocation built by
`executeDocker` (and by `wsHandler` in Docker mode). -/
def dockerArgs (tmp : String) (lang : LangConfig) (runCmd : String) : List String :=
  ["run", "--rm", "-i",
   "--network=none",
   "--memory=256m",
   "--memory-swap=256m",
   "--cpus=1.0",
   "--pids-limit=128",
   "--read-only",
   "--cap-drop=ALL",
   "--security-opt", "no-new-privileges",
   "--ulimit", "fsize=10485760:10485760",
   "--ulimit", "nofile=256:256",
   "--tmpfs", "/tmp:rw,exec,size=64m",
   "-v", tmp ++ ":/app:rw",
   "-w", "/app",
   lang.Image,
   "sh", "-c", runCmd]

/-- The `switch lang.Filename` in the native fallback: interpreted languages
run directly on the host, anything else is unsupported. -/
def nativeCmd (lang : LangConfig) (codePath : String) : Option (List String) :=
  match lang.Filename with
  | "main.py" => some ["python3", codePath]
  | "main.js" => some ["node", codePath]
  | _ => none

/-- Error string of the native fallback's unsupported branch. -/
def nativeUnsupportedMsg : List Nat :=
  strBytes "Native execution not supported for this language. Install Docker."

/-- `executeDocker`: workspace, source file, hardened docker invocation,
capped output buffers, and the empty-stderr enrichment on failure. -/
def executeDocker (env : ExecEnv) (lang : LangConfig) (code stdin : List Nat) : ExecResult :=
  match env.mkdirErr with
  | some e => ⟨⟨[], e, false⟩, false, false, [], 0⟩
  | none =>
    match env.writeErr with
    | some e => ⟨⟨[], e, false⟩, true, false, [], 0⟩
    | none =>
      let argv := "docker" :: dockerArgs env.tmpPath lang (runCmdOf lang)
      let so := (writeTrace (lwInit MaxOutputSize) env.stdoutChunks).1
      let se := (writeTrace (lwInit MaxOutputSize) env.stderrChunks).1
      let resp : RunResponse :=
        match env.runErr with
        | none => ⟨so.out, se.out, true⟩
        | some e => ⟨so.out, if se.out = [] then e else se.out, false⟩
      ⟨resp, true, true, argv, lang.Timeout⟩

/-- `executeNative`: workspace, source file, then a direct host interpreter
invocation with plain (uncapped) output buffers and no stderr enrichment;
non-interpreted languages get the unsupported-error response. -/
def executeNative (env : ExecEnv) (lang : LangConfig) (code stdin : List Nat) : ExecResult :=
  match env.mkdirErr with
  | some e => ⟨⟨[], e, false⟩, false, false, [], 0⟩
  | none =>
    match env.writeErr with
    | some e => ⟨⟨[], e, false⟩, true, false, [], 0⟩
    | none =>
      match nativeCmd lang (env.tmpPath ++ "/" ++ lang.Filename) with
      | none => ⟨⟨[], nativeUnsupportedMsg, false⟩, true, false, [], 0⟩
      | some argv =>
          ⟨⟨env.stdoutChunks.flatten, env.stderrChunks.flatten, env.runErr.isNone⟩,
            true, true, argv, lang.Timeout⟩

/-- Which executor the handler dispatched to. -/
inductive Executor where
  | docker
  | native
deriving DecidableEq, Repr

/-- Transport-level outcome of one Batch request: HTTP status, slot
accounting, and the execution (if one happened). -/
structure BatchOutcome where
  status : Nat
  acquired : Bool
  released : Bool
  exec : Option (Executor × ExecResult)
deriving Repr, DecidableEq

/-- Hard request-body limit installed via `http.MaxBytesReader` before the
JSON decoder runs. -/
def maxBodyBytes : Nat := MaxCodeSize + MaxStdinSize + 1024

/-- Result of `json.NewDecoder(r.Body).Decode(&req)` behind the byte-limited
reader: `hitLimit` is true when decoding needed to read past the hard limit
(the reader then yields a MaxBytesError and the decode fails); otherwise the
decode yields the parsed request or a syntax error. -/
inductive DecodeOut where
  | tooLarge
  | malformed
  | ok (req : RunRequest)
deriving DecidableEq, Repr

/-- Decode step of the surviving `runHandler`. -/
def decodeBody (hitLimit : Bool) (body : Option RunRequest) : DecodeOut :=
  if hitLimit then .tooLarge
  else
    match body with
    | none => .malformed
    | some req => .ok req

/-- Surviving `runHandler`: admission first (429), then the byte-limited JSON
decode (any failure → 400 "Invalid request"), then language lookup
(400 "Unsupported language"), then execution with implicit status 200; the
deferred `releaseSlot` runs on every post-admission path. -/
def runHandler (dockerAvail : Bool) (count : Int) (hitLimit : Bool)
    (body : Option RunRequest) (env : ExecEnv) : BatchOutcome :=
  if (acquireSlot count).2 = false then
    ⟨429, false, false, none⟩
  else
    match decodeBody hitLimit body with
    | .tooLarge => ⟨400, true, true, none⟩
    | .malformed => ⟨400, true, true, none⟩
    | .ok req =>
      match lookupLang req.Language with
      | none => ⟨400, true, true, none⟩
      | some lang =>
        if dockerAvail then
          ⟨200, true, true, some (.docker, executeDocker env lang req.Code req.Stdin)⟩
        else
          ⟨200, true, true, some (.native, executeNative env lang req.Code req.Stdin)⟩

/-! Stream session (`wsHandler`).  Inbound frames are `WSMessage`; outbound
frames are `WSOut` (Go `WSResponse` with its four `type` values). -/

/-- Inbound frame (`WSMessage`), fields used by the handler.  The Go field
`Type` is called `MsgType` here because `Type` is reserved in Lean. -/
structure WSMessage where
  MsgType : String
  Language : String
  Code : List Nat
  Data : List Nat
deriving Repr, DecidableEq

/-- Outbound frame: Go `WSResponse` discriminated on its `type` field. -/
inductive WSOut where
  | stdout (data : List Nat)
  | stderr (data : List Nat)
  | exit (code : Int)
  | error (data : List Nat)
deriving Repr, DecidableEq

/-- Oracle for one stream session's external events: the first inbound frame
(`none` = `conn.ReadJSON` failed), the workspace and pipe/start errors, the
chunk sequences the two producer goroutines read from their pipes before
end-of-stream, and the process exit code. -/
structure WSEnv where
  firstFrame : Option WSMessage
  mkdirErr : Option (List Nat)
  writeErr : Option (List Nat)
  stdinPipeErr : Option (List Nat)
  stdoutPipeErr : Option (List Nat)
  stderrPipeErr : Option (List Nat)
  startErr : Option (List Nat)
  stdoutChunks : List (List Nat)
  stderrChunks : List (List Nat)
  exitCode : Int
  tmpPath : String
deriving Repr, DecidableEq

/-- How the sequential prefix of `wsHandler` ended: either an early return
(with the frames written so far and which effects had happened), or a started
process with the argv it runs and the session's output material. -/
inductive WSSetup where
  | aborted (frames : List WSOut) (wsCreated : Bool) (spawned : Bool)
  | started (argv : List String) (stdoutChunks stderrChunks : List (List Nat)) (exitCode : Int)
deriving Repr, DecidableEq

/-- Error payloads of the handler's literal messages. -/
def expectInitMsg : List Nat := strBytes "Expected init message"

/-- Payload of the unsupported-language error frame. -/
def unsupportedLangMsg : List Nat := strBytes "Unsupported language"

/-- Payload of the stream handler's native-fallback unsupported error. -/
def nativeUnsupportedWSMsg : List Nat := strBytes "Native execution not supported"

/-- Sequential prefix of `wsHandler` after admission and upgrade: init frame,
language lookup, workspace, source file, command construction (docker or
native fallback), the three pipes, and `cmd.Start`. -/
def wsSetup (dockerAvail : Bool) (env : WSEnv) : WSSetup :=
  match env.firstFrame with
  | none => .aborted [.error expectInitMsg] false false
  | some m =>
    if m.MsgType = "init" then
      match lookupLang m.Language with
      | none => .aborted [.error unsupportedLangMsg] false false
      | some lang =>
        match env.mkdirErr with
        | some e => .aborted [.error e] false false
        | none =>
          match env.writeErr with
          | some e => .aborted [.error e] true false
          | none =>
            let argvOpt : Option (List String) :=
              if dockerAvail then
                some ("docker" :: dockerArgs env.tmpPath lang (runCmdOf lang))
              else
                nativeCmd lang (env.tmpPath ++ "/" ++ lang.Filename)
            match argvOpt with
            | none => .aborted [.error nativeUnsupportedWSMsg] true false
            | some argv =>
              match env.stdinPipeErr with
              | some e => .aborted [.error e] true false
              | none =>
                match env.stdoutPipeErr with
                | some e => .aborted [.error e] true false
                | none =>
                  match env.stderrPipeErr with
                  | some e => .aborted [.error e] true false
                  | none =>
                    match env.startErr with
                    | some e => .aborted [.error e] true false
                    | none => .started argv env.stdoutChunks env.stderrChunks env.exitCode
    else .aborted [.error expectInitMsg] false false

/-- Frames emitted by an aborted setup (a started one has emitted none yet). -/
def WSSetup.frames : WSSetup → List WSOut
  | .aborted f _ _ => f
  | .started _ _ _ _ => []

/-- Whether a sandbox/child process was spawned. -/
def WSSetup.spawned : WSSetup → Bool
  | .aborted _ _ s => s
  | .started _ _ _ _ => true

/-- Whether the workspace directory was created. -/
def WSSetup.wsCreated : WSSetup → Bool
  | .aborted _ b _ => b
  | .started _ _ _ _ => true

/-- Frames the stdout producer goroutine writes: one `stdout` frame per
nonempty pipe read (`if n > 0`), in read order. -/
def stdoutFrames (chunks : List (List Nat)) : List WSOut :=
  (chunks.filter (fun c => !c.isEmpty)).map WSOut.stdout

/-- Frames the stderr producer goroutine writes. -/
def stderrFrames (chunks : List (List Nat)) : List WSOut :=
  (chunks.filter (fun c => !c.isEmpty)).map WSOut.stderr

/-- Arbitrary interleaving of two frame sequences, each kept in order — the
two producer goroutines write concurrently to the same connection. -/
inductive Interleave : List WSOut → List WSOut → List WSOut → Prop
  | nil : Interleave [] [] []
  | left {x : WSOut} {xs ys zs : List WSOut} :
      Interleave xs ys zs → Interleave (x :: xs) ys (x :: zs)
  | right {y : WSOut} {xs ys zs : List WSOut} :
      Interleave xs ys zs → Interleave xs (y :: ys) (y :: zs)

/-- Outbound frame sequences a session can produce.  For an aborted setup the
trace is exactly its error frames.  For a started one, the code writes the
exit frame on the handler goroutine only after `<-done` (the supervisor saw
`cmd.Wait` return) and `wg.Wait()` (every producer has returned, which they
do only on a read error/EOF after writing all their frames), so the trace is
an interleaving of the two producers' complete frame lists followed by the
single exit frame; no other write to the connection exists after it. -/
def sessionOutbound (s : WSSetup) (t : List WSOut) : Prop :=
  match s with
  | .aborted frames _ _ => t = frames
  | .started _ so se ec =>
      ∃ m, Interleave (stdoutFrames so) (stderrFrames se) m ∧ t = m ++ [.exit ec]

lemma interleave_perm {xs ys zs : List WSOut} (h : Interleave xs ys zs) :
    zs.Perm (xs ++ ys) := by
  induction h with
  | nil => exact List.Perm.refl []
  | left h ih => exact ih.cons _
  | right h ih => exact (ih.cons _).trans List.perm_middle.symm

/-- C3: in every stream session that reaches the running state, the exit
frame is the last outbound frame — everything before it is a stdout or
stderr frame, the frames before it are exactly the two producers' complete
outputs (each producer has observed end-of-stream before the exit frame is
written), and no stdout, stderr or error frame follows the exit frame. -/
theorem stream_exit_last_C3 (argv : List String) (so se : List (List Nat))
    (ec : Int) (t : List WSOut)
    (h : sessionOutbound (.started argv so se ec) t) :
    t.getLast? = some (WSOut.exit ec) ∧
    t.dropLast.Perm (stdoutFrames so ++ stderrFrames se) ∧
    (∀ f ∈ t.dropLast, (∃ d, f = WSOut.stdout d) ∨ (∃ d, f = WSOut.stderr d)) := by
  obtain ⟨m, hI, ht⟩ := h
  subst ht
  have hperm : m.Perm (stdoutFrames so ++ stderrFrames se) := interleave_perm hI
  refine ⟨List.getLast?_concat m, by simpa using hperm, ?_⟩
  intro f hf
  rw [List.dropLast_concat] at hf
  have hmem : f ∈ stdoutFrames so ++ stderrFrames se := hperm.mem_iff.mp hf
  rcases List.mem_append.mp hmem with hso | hse
  · obtain ⟨d, -, hd⟩ := List.mem_map.mp hso
    exact Or.inl ⟨d, hd.symm⟩
  · obtain ⟨d, -, hd⟩ := List.mem_map.mp hse
    exact Or.inr ⟨d, hd.symm⟩

/-- Concrete session trace for stream_exit_last_C3. -/
theorem stream_exit_last_C3_witness :
    ([WSOut.stdout [1], WSOut.stderr [2], WSOut.exit 0] : List WSOut).getLast? =
      some (WSOut.exit 0) :=
  (stream_exit_last_C3 ["python3", "tmp/main.py"] [[1]] [[2]] 0
    [WSOut.stdout [1], WSOut.stderr [2], WSOut.exit 0]
    ⟨[WSOut.stdout [1], WSOut.stderr [2]],
      Interleave.left (Interleave.right Interleave.nil), rfl⟩).1

/-- C4: if the first inbound frame is not a well-formed init frame (read or
parse failure, or a different type), the session emits exactly the single
error frame "Expected init message" and terminates with no workspace created
and no sandbox spawned, and that error frame is the session's entire
outbound trace. -/
theorem init_discipline_C4 (d : Bool) (env : WSEnv)
    (h : env.firstFrame = none ∨
      ∃ m, env.firstFrame = some m ∧ m.MsgType ≠ "init") :
    wsSetup d env = .aborted [.error expectInitMsg] false false ∧
    ∀ t, sessionOutbound (wsSetup d env) t → t = [.error expectInitMsg] := by
  have hset : wsSetup d env = .aborted [.error expectInitMsg] false false := by
    rcases h with h1 | ⟨m, hm, hne⟩
    · simp [wsSetup, h1]
    · simp [wsSetup, hm, if_neg hne]
  refine ⟨hset, ?_⟩
  intro t ht
  rw [hset] at ht
  exact ht

/-- Concrete failed-init session for init_discipline_C4. -/
def c4Env : WSEnv :=
  ⟨some ⟨"stdin", "python", [], [104, 105]⟩, none, none, none, none, none, none,
    [], [], 0, "tmp"⟩

theorem init_discipline_C4_witness :
    wsSetup true c4Env = .aborted [.error expectInitMsg] false false :=
  (init_discipline_C4 true c4Env (Or.inr ⟨⟨"stdin", "python", [], [104, 105]⟩,
    rfl, by decide⟩)).1

/-- Payload byte count of a frame list. -/
def WSOut.payloadLen : WSOut → Nat
  | .stdout d => d.length
  | .stderr d => d.length
  | .exit _ => 0
  | .error d => d.length

/-- Total payload bytes in a list of outbound frames. -/
def framesBytes (l : List WSOut) : Nat := (l.map WSOut.payloadLen).sum

/-- Sandbox stdout emitting 1025 reads of 1024 bytes each: 1,049,600 bytes,
more than the 1 MiB cap. -/
def bigChunks : List (List Nat) := List.replicate 1025 (List.replicate 1024 97)

lemma flatten_replicate_replicate (n k a : Nat) :
    (List.replicate n (List.replicate k a)).flatten = List.replicate (n * k) a := by
  induction n with
  | zero => simp
  | succ n ih =>
      rw [List.replicate_succ, List.flatten_cons, ih,
        show (n + 1) * k = k + n * k by ring, List.replicate_add]

lemma stream_forward_all (chunks : List (List Nat)) :
    framesBytes (stdoutFrames chunks) = chunks.flatten.length := by
  induction chunks with
  | nil => rfl
  | cons c cs ih =>
      by_cases hc : c.isEmpty
      · have hcnil : c = [] := by
          cases c
          · rfl
          · simp [List.isEmpty] at hc
        simp [stdoutFrames, framesBytes, hcnil] at ih ⊢
        exact ih
      · have hfalse : c.isEmpty = false := by simpa using hc
        have hstep : stdoutFrames (c :: cs) = WSOut.stdout c :: stdoutFrames cs := by
          simp [stdoutFrames, List.filter_cons, hfalse]
        rw [List.flatten_cons, List.length_append, hstep]
        simp only [framesBytes, List.map_cons, List.sum_cons, WSOut.payloadLen]
        simp only [framesBytes] at ih
        omega

/-- C5: the stream producer goroutines forward every byte the sandbox emits
with no per-stream cap — for any chunk sequence the bytes sent as stdout
frames equal the bytes read from the pipe, and in particular a sandbox that
emits 1,049,600 bytes (beyond the 1 MiB `MaxOutputSize`) has all of them
forwarded rather than being cut off at the cap, contradicting the claimed
silent drop past 1 MiB. -/
theorem stream_uncapped_C5 :
    (∀ chunks : List (List Nat),
        framesBytes (stdoutFrames chunks) = chunks.flatten.length) ∧
    framesBytes (stdoutFrames bigChunks) = 1049600 ∧
    MaxOutputSize < 1049600 := by
  refine ⟨stream_forward_all, ?_, by decide⟩
  rw [stream_forward_all, bigChunks, flatten_replicate_replicate,
    List.length_replicate]

/-! Claims C6 and C7: workspace failure handling and stderr enrichment. -/

lemma executeDocker_wsfail (env : ExecEnv) (lang : LangConfig) (code stdin e : List Nat)
    (he : env.mkdirErr = some e ∨ (env.mkdirErr = none ∧ env.writeErr = some e)) :
    (executeDocker env lang code stdin).resp = ⟨[], e, false⟩ ∧
    (executeDocker env lang code stdin).spawned = false := by
  rcases he with h1 | ⟨h1, h2⟩
  · simp [executeDocker, h1]
  · simp [executeDocker, h1, h2]

lemma executeNative_wsfail (env : ExecEnv) (lang : LangConfig) (code stdin e : List Nat)
    (he : env.mkdirErr = some e ∨ (env.mkdirErr = none ∧ env.writeErr = some e)) :
    (executeNative env lang code stdin).resp = ⟨[], e, false⟩ ∧
    (executeNative env lang code stdin).spawned = false := by
  rcases he with h1 | ⟨h1, h2⟩
  · simp [executeNative, h1]
  · simp [executeNative, h1, h2]

lemma wsSetup_wsfail (d : Bool) (wenv : WSEnv) (m : WSMessage) (lang : LangConfig)
    (e : List Nat) (hf : wenv.firstFrame = some m) (hmt : m.MsgType = "init")
    (hwl : lookupLang m.Language = some lang)
    (hwe : wenv.mkdirErr = some e ∨ (wenv.mkdirErr = none ∧ wenv.writeErr = some e)) :
    (wsSetup d wenv).frames = [.error e] ∧ (wsSetup d wenv).spawned = false := by
  rcases hwe with h1 | ⟨h1, h2⟩
  · simp [wsSetup, hf, hmt, hwl, h1, WSSetup.frames, WSSetup.spawned]
  · simp [wsSetup, hf, hmt, hwl, h1, h2, WSSetup.frames, WSSetup.spawned]

/-- Admitted well-formed python request used in concrete evaluations. -/
def wellFormedReq : RunRequest := ⟨"python", [112], []⟩

/-- Environment in which `os.MkdirTemp` fails. -/
def mkdirFailEnv : ExecEnv :=
  ⟨some (strBytes "mkdir failed"), none, [], [], none, "tmp"⟩

/-- C6 counterexample: when creating the temp workspace fails, the surviving
Batch handler responds with HTTP 200 (the failure message is carried in the
stderr field), not with an internal-error 5xx status as claimed. -/
theorem workspace_failure_C6_counterexample :
    (runHandler true 0 false (some wellFormedReq) mkdirFailEnv).status = 200 ∧
    ¬ (500 ≤ (runHandler true 0 false (some wellFormedReq) mkdirFailEnv).status ∧
        (runHandler true 0 false (some wellFormedReq) mkdirFailEnv).status ≤ 599) ∧
    ((runHandler true 0 false (some wellFormedReq) mkdirFailEnv).exec.map
        (fun x => x.2.spawned)) = some false := by
  decide

/-- C6 (amended): when creating the temp workspace directory or writing the
source file fails, the Batch endpoint responds with HTTP 200 carrying the
failure message as the stderr field and success=false (not a 5xx status),
the Stream endpoint emits exactly one Error frame, and in both cases no
sandbox is spawned; the admission slot is released by the handlers' deferred
releaseSlot (the `released` flag of the transport outcome). -/
theorem workspace_failure_C6 (d : Bool) (count : Int) (hitLimit : Bool)
    (body : Option RunRequest) (req : RunRequest) (lang : LangConfig)
    (env : ExecEnv) (e : List Nat)
    (hcount : (acquireSlot count).2 = true)
    (hbody : body = some req) (hhit : hitLimit = false)
    (hlang : lookupLang req.Language = some lang)
    (he : env.mkdirErr = some e ∨ (env.mkdirErr = none ∧ env.writeErr = some e))
    (wenv : WSEnv) (m : WSMessage)
    (hf : wenv.firstFrame = some m) (hmt : m.MsgType = "init")
    (hwl : lookupLang m.Language = some lang)
    (hwe : wenv.mkdirErr = some e ∨ (wenv.mkdirErr = none ∧ wenv.writeErr = some e)) :
    ((runHandler d count hitLimit body env).status = 200 ∧
     (runHandler d count hitLimit body env).released = true ∧
     ∃ x, (runHandler d count hitLimit body env).exec = some x ∧
       x.2.resp.Stderr = e ∧ x.2.resp.Success = false ∧ x.2.spawned = false) ∧
    ((wsSetup d wenv).frames = [.error e] ∧ (wsSetup d wenv).spawned = false) := by
  refine ⟨?_, wsSetup_wsfail d wenv m lang e hf hmt hwl hwe⟩
  have hdec : decodeBody hitLimit body = .ok req := by
    simp [decodeBody, hhit, hbody]
  cases d with
  | true =>
      have hru : runHandler true count hitLimit body env =
          ⟨200, true, true, some (.docker, executeDocker env lang req.Code req.Stdin)⟩ := by
        simp [runHandler, hcount, hdec, hlang]
      obtain ⟨hr, hs⟩ := executeDocker_wsfail env lang req.Code req.Stdin e he
      rw [hru]
      exact ⟨rfl, rfl, ⟨(.docker, executeDocker env lang req.Code req.Stdin), rfl,
        by rw [hr], by rw [hr], hs⟩⟩
  | false =>
      have hru : runHandler false count hitLimit body env =
          ⟨200, true, true, some (.native, executeNative env lang req.Code req.Stdin)⟩ := by
        simp [runHandler, hcount, hdec, hlang]
      obtain ⟨hr, hs⟩ := executeNative_wsfail env lang req.Code req.Stdin e he
      rw [hru]
      exact ⟨rfl, rfl, ⟨(.native, executeNative env lang req.Code req.Stdin), rfl,
        by rw [hr], by rw [hr], hs⟩⟩

/-- Concrete workspace-failure session for workspace_failure_C6. -/
def c6WEnv : WSEnv :=
  ⟨some ⟨"init", "python", [], []⟩, some (strBytes "mkdir failed"), none, none,
    none, none, none, [], [], 0, "tmp"⟩

theorem workspace_failure_C6_witness :
    (wsSetup true c6WEnv).frames = [.error (strBytes "mkdir failed")] :=
  (workspace_failure_C6 true 0 false (some wellFormedReq) wellFormedReq pyLang
    mkdirFailEnv (strBytes "mkdir failed") (by decide) rfl rfl rfl (Or.inl rfl)
    c6WEnv ⟨"init", "python", [], []⟩ rfl rfl rfl (Or.inl rfl)).2.1

/-- C7: in a Batch docker execution where `cmd.Run` returns an error (timeout
kill, nonzero exit, or runtime failure — Go error strings from exec are
non-empty) and the captured stderr buffer is empty, the response's stderr is
populated with that non-empty error description; when the captured stderr is
non-empty it is returned unmodified by this enrichment step; success is
false either way. -/
theorem timeout_stderr_C7 (env : ExecEnv) (lang : LangConfig)
    (code stdin e : List Nat)
    (hm : env.mkdirErr = none) (hw : env.writeErr = none)
    (he : env.runErr = some e) (hne : e ≠ []) :
    ((executeDocker env lang code stdin).resp.Success = false) ∧
    ((executeDocker env lang code stdin).resp.Stderr ≠ []) ∧
    ((writeTrace (lwInit MaxOutputSize) env.stderrChunks).1.out = [] →
       (executeDocker env lang code stdin).resp.Stderr = e) ∧
    ((writeTrace (lwInit MaxOutputSize) env.stderrChunks).1.out ≠ [] →
       (executeDocker env lang code stdin).resp.Stderr =
         (writeTrace (lwInit MaxOutputSize) env.stderrChunks).1.out) := by
  by_cases hse : (writeTrace (lwInit MaxOutputSize) env.stderrChunks).1.out = [] <;>
    simp [executeDocker, hm, hw, he, hse, hne]

/-- Concrete failing run with empty captured stderr for timeout_stderr_C7. -/
def c7Env : ExecEnv := ⟨none, none, [], [], some [101], "tmp"⟩

theorem timeout_stderr_C7_witness :
    (executeDocker c7Env pyLang [] []).resp.Stderr = [101] :=
  (timeout_stderr_C7 c7Env pyLang [] [] [101] rfl rfl rfl (by decide)).2.2.1 (by decide)

/-! Claim C8: the truncation marker. -/

/-- Marker the legacy batch handler appends when a stream was truncated. -/
def truncMarker : List Nat := strBytes "\n... [output truncated, max 1MB]"

/-- Legacy `runHandler` post-processing of one captured stream: the buffer
contents, with the marker appended when the bounded writer's flag is set. -/
def b1Field (chunks : List (List Nat)) : List Nat :=
  let lw := (B1.writeTrace (B1.lwInit MaxOutputSize) chunks).1
  if lw.truncated then lw.out ++ truncMarker else lw.out

lemma getLast?_replicate (n a : Nat) (h : n ≠ 0) :
    (List.replicate n a).getLast? = some a := by
  cases n with
  | zero => exact absurd rfl h
  | succ n => rw [List.replicate_succ', List.getLast?_concat]

/-- Docker execution whose sandbox floods stdout beyond the cap. -/
def c8Env : ExecEnv := ⟨none, none, bigChunks, [], none, "tmp"⟩

lemma executeDocker_stdout (env : ExecEnv) (lang : LangConfig)
    (code stdin : List Nat) (hm : env.mkdirErr = none) (hw : env.writeErr = none) :
    (executeDocker env lang code stdin).resp.Stdout =
      env.stdoutChunks.flatten.take MaxOutputSize := by
  cases he : env.runErr <;> simp [executeDocker, hm, hw, he, core_writeTrace_out]

/-- C8 counterexample: a Batch execution through the surviving `executeDocker`
whose sandbox emits 1,049,600 bytes on stdout (so the Bounded Writer drops
bytes) returns exactly the first 1 MiB of output with no truncation marker:
the returned string does not end with the marker, refuting the claim for
this Batch path. -/
theorem batch_truncation_C8_counterexample :
    c8Env.stdoutChunks.flatten.length > MaxOutputSize ∧
    (executeDocker c8Env pyLang [] []).resp.Stdout =
      List.replicate MaxOutputSize 97 ∧
    ¬ ∃ s, (executeDocker c8Env pyLang [] []).resp.Stdout = s ++ truncMarker := by
  have hflat : c8Env.stdoutChunks.flatten = List.replicate (1025 * 1024) 97 :=
    flatten_replicate_replicate 1025 1024 97
  have hstdout : (executeDocker c8Env pyLang [] []).resp.Stdout =
      List.replicate MaxOutputSize 97 := by
    rw [executeDocker_stdout c8Env pyLang [] [] rfl rfl, hflat,
      List.take_replicate]
    norm_num [MaxOutputSize]
  refine ⟨?_, hstdout, ?_⟩
  · rw [hflat, List.length_replicate]
    norm_num [MaxOutputSize]
  · rintro ⟨s, hs⟩
    rw [hstdout] at hs
    have h1 : (List.replicate MaxOutputSize 97).getLast? = some 97 :=
      getLast?_replicate _ _ (by norm_num [MaxOutputSize])
    have h2 : (s ++ truncMarker).getLast? = truncMarker.getLast? :=
      List.getLast?_append_of_ne_nil s (by decide)
    have h3 : truncMarker.getLast? = some 93 := by decide
    rw [hs, h2, h3] at h1
    simp at h1

/-- C8 (amended): the truncation marker exists only in the legacy Batch
handler (the variant whose Bounded Writer tracks `truncated`): there, for any
sequence of nonempty writes, a stream that dropped at least one byte is
returned as the first 1 MiB of emitted bytes followed by the marker (total
length at most cap + marker length), and a stream that emitted at most the
cap is returned exactly with no marker; the surviving `executeDocker` Batch
path instead returns the capped bytes with no marker ever appended. -/
theorem batch_truncation_C8 (chunks : List (List Nat))
    (hne : ∀ c ∈ chunks, c ≠ []) :
    (chunks.flatten.length > MaxOutputSize →
       b1Field chunks = chunks.flatten.take MaxOutputSize ++ truncMarker ∧
       (b1Field chunks).length ≤ MaxOutputSize + truncMarker.length) ∧
    (chunks.flatten.length ≤ MaxOutputSize → b1Field chunks = chunks.flatten) ∧
    (∀ env : ExecEnv, ∀ lang : LangConfig, ∀ code stdin : List Nat,
       env.mkdirErr = none → env.writeErr = none →
       (executeDocker env lang code stdin).resp.Stdout =
         env.stdoutChunks.flatten.take MaxOutputSize) := by
  refine ⟨?_, ?_, fun env lang code stdin hm hw =>
    executeDocker_stdout env lang code stdin hm hw⟩
  · intro hgt
    have htr := B1.writeTrace_truncated MaxOutputSize chunks hgt
    have hout := B1.writeTrace_out MaxOutputSize chunks
    constructor
    · simp [b1Field, htr, hout]
    · simp [b1Field, htr, hout, List.length_take]
  · intro hle
    obtain ⟨hfl, hout⟩ := B1.writeTrace_no_trunc MaxOutputSize chunks
      (B1.lwInit MaxOutputSize) rfl rfl (by simpa [B1.lwInit] using hle) hne
    simp [B1.lwInit] at hout
    simp only [b1Field, hfl, Bool.false_eq_true, if_false]
    exact hout

/-- Concrete under-cap run for batch_truncation_C8. -/
theorem batch_truncation_C8_witness : b1Field [[1, 2], [3]] = [1, 2, 3] :=
  (batch_truncation_C8 [[1, 2], [3]] (by decide)).2.1 (by decide)

/-! Claim C9: Batch transport status codes. -/

/-- Environment with no failures and no output. -/
def okEnv : ExecEnv := ⟨none, none, [], [], none, "tmp"⟩

/-- C9 counterexample: a request whose body exceeds the 64 KiB + 1 MiB + 1 KiB
hard limit (the byte-limited reader fires during decoding) is answered with
status 400 "Invalid request", not with 413 as claimed. -/
theorem batch_status_C9_counterexample :
    (runHandler true 0 true (some wellFormedReq) okEnv).status = 400 ∧
    (runHandler true 0 true (some wellFormedReq) okEnv).status ≠ 413 := by
  decide

/-- Oversized code field (64 KiB + 1 byte) inside an admissible body. -/
def bigCodeReq : RunRequest := ⟨"python", List.replicate (MaxCodeSize + 1) 97, []⟩

/-- C9 (amended): the surviving Batch handler's status is 429 on admission
refusal (checked before the body is read); 400 — never 413 — when the decoder
hits the hard body limit of 64 KiB + 1 MiB + 1 KiB installed before parsing,
and 400 on malformed JSON or an unknown language tag; and 200 on every
admitted, decoded request with a known language regardless of the execution's
outcome.  The handler has no separate len(code)/len(stdin) checks, so a
request whose code field exceeds 64 KiB but whose body fits the hard limit is
executed and answered 200.  No path produces any other status. -/
theorem batch_status_C9 (d : Bool) (count : Int) (hitLimit : Bool)
    (body : Option RunRequest) (env : ExecEnv) :
    ((runHandler d count hitLimit body env).status = 429 ∨
     (runHandler d count hitLimit body env).status = 400 ∨
     (runHandler d count hitLimit body env).status = 200) ∧
    ((acquireSlot count).2 = false →
        (runHandler d count hitLimit body env).status = 429 ∧
        (runHandler d count hitLimit body env).exec = none) ∧
    ((acquireSlot count).2 = true → hitLimit = true →
        (runHandler d count hitLimit body env).status = 400) ∧
    ((acquireSlot count).2 = true → hitLimit = false → body = none →
        (runHandler d count hitLimit body env).status = 400) ∧
    (∀ req, (acquireSlot count).2 = true → hitLimit = false → body = some req →
        lookupLang req.Language = none →
        (runHandler d count hitLimit body env).status = 400) ∧
    (∀ req lang, (acquireSlot count).2 = true → hitLimit = false →
        body = some req → lookupLang req.Language = some lang →
        (runHandler d count hitLimit body env).status = 200 ∧
        (runHandler d count hitLimit body env).released = true ∧
        (runHandler d count hitLimit body env).exec ≠ none) ∧
    (∀ req lang, (acquireSlot count).2 = true → hitLimit = false →
        body = some req → lookupLang req.Language = some lang →
        req.Code.length > MaxCodeSize →
        (runHandler d count hitLimit body env).status = 200) := by
  refine ⟨?_, ?_, ?_, ?_, ?_, ?_, ?_⟩
  · simp only [runHandler]
    split
    · exact Or.inl rfl
    · cases hdb : decodeBody hitLimit body with
      | tooLarge => simp [hdb]
      | malformed => simp [hdb]
      | ok req =>
          cases hl : lookupLang req.Language with
          | none => simp [hdb, hl]
          | some lang => cases d <;> simp [hdb, hl]
  · intro h
    simp [runHandler, h]
  · intro ht hh
    simp [runHandler, ht, hh, decodeBody]
  · intro ht hh hb
    simp [runHandler, ht, hh, hb, decodeBody]
  · intro req ht hh hb hl
    simp [runHandler, ht, hh, hb, hl, decodeBody]
  · intro req lang ht hh hb hl
    cases d <;> simp [runHandler, ht, hh, hb, hl, decodeBody]
  · intro req lang ht hh hb hl hbig
    cases d <;> simp [runHandler, ht, hh, hb, hl, decodeBody]

/-- Concrete oversized-code request answered 200 for batch_status_C9. -/
theorem batch_status_C9_witness :
    (runHandler true 0 false (some bigCodeReq) okEnv).status = 200 :=
  (batch_status_C9 true 0 false (some bigCodeReq) okEnv).2.2.2.2.2.2 bigCodeReq
    pyLang (by decide) rfl rfl rfl
    (by simp [bigCodeReq, List.length_replicate])

/-! Claim C10: native fallback when Docker is unavailable. -/

/-- C10: with Docker unavailable at startup every admitted Batch request is
dispatched to `executeNative`, which runs python and javascript code directly
on the host — the spawned argv is the bare interpreter invocation (two
entries, none of the docker isolation flags that `dockerArgs` always
carries), the output buffers are plain (returned uncapped, unlike the docker
path), and only the per-language wall-clock timeout applies — while the go,
cpp and java rows get the error response "Native execution not supported for
this language. Install Docker." with no process spawned; the stream handler
likewise aborts with its "Native execution not supported" error frame for
those rows. -/
theorem native_fallback_C10 (env : ExecEnv) (code stdin : List Nat)
    (hm : env.mkdirErr = none) (hw : env.writeErr = none) :
    (∀ (count : Int) (body : Option RunRequest) (req : RunRequest)
        (lang : LangConfig),
        (acquireSlot count).2 = true → body = some req →
        lookupLang req.Language = some lang →
        (runHandler false count false body env).exec =
          some (.native, executeNative env lang req.Code req.Stdin)) ∧
    ((executeNative env pyLang code stdin).argv =
        ["python3", env.tmpPath ++ "/" ++ "main.py"] ∧
     (executeNative env pyLang code stdin).spawned = true ∧
     (executeNative env pyLang code stdin).resp.Stdout = env.stdoutChunks.flatten ∧
     (executeNative env pyLang code stdin).resp.Stderr = env.stderrChunks.flatten ∧
     (executeNative env pyLang code stdin).timeoutUsed = pyLang.Timeout) ∧
    ((executeNative env jsLang code stdin).argv =
        ["node", env.tmpPath ++ "/" ++ "main.js"] ∧
     (executeNative env jsLang code stdin).spawned = true ∧
     (executeNative env jsLang code stdin).resp.Stdout = env.stdoutChunks.flatten) ∧
    (∀ lang, lang = goLang ∨ lang = cppLang ∨ lang = javaLang →
        executeNative env lang code stdin =
          ⟨⟨[], nativeUnsupportedMsg, false⟩, true, false, [], 0⟩) ∧
    (∀ lang path argv, nativeCmd lang path = some argv →
        argv = ["python3", path] ∨ argv = ["node", path]) ∧
    (∀ tmp lang rc, "--network=none" ∈ dockerArgs tmp lang rc ∧
        "--memory=256m" ∈ dockerArgs tmp lang rc ∧
        "--pids-limit=128" ∈ dockerArgs tmp lang rc ∧
        "--read-only" ∈ dockerArgs tmp lang rc ∧
        "--cap-drop=ALL" ∈ dockerArgs tmp lang rc) ∧
    (∀ (wenv : WSEnv) (m : WSMessage) (lang : LangConfig),
        wenv.firstFrame = some m → m.MsgType = "init" →
        wenv.mkdirErr = none → wenv.writeErr = none →
        lookupLang m.Language = some lang →
        (lang = goLang ∨ lang = cppLang ∨ lang = javaLang) →
        wsSetup false wenv = .aborted [.error nativeUnsupportedWSMsg] true false) := by
  refine ⟨?_, ?_, ?_, ?_, ?_, ?_, ?_⟩
  · intro count body req lang hcount hbody hlang
    simp [runHandler, hcount, hbody, hlang, decodeBody]
  · simp [executeNative, hm, hw, nativeCmd, pyLang]
  · simp [executeNative, hm, hw, nativeCmd, jsLang]
  · rintro lang (hl | hl | hl) <;> subst hl <;>
      simp [executeNative, hm, hw, nativeCmd, goLang, cppLang, javaLang]
  · intro lang path argv h
    unfold nativeCmd at h
    split at h
    · exact Or.inl (by injection h with h'; exact h'.symm)
    · exact Or.inr (by injection h with h'; exact h'.symm)
    · exact absurd h (by simp)
  · intro tmp lang rc
    refine ⟨?_, ?_, ?_, ?_, ?_⟩ <;> simp [dockerArgs]
  · intro wenv m lang hf hmt hwm hww hwl hcase
    have hnc : nativeCmd lang (wenv.tmpPath ++ "/" ++ lang.Filename) = none := by
      rcases hcase with h | h | h <;> subst h <;>
        simp [nativeCmd, goLang, cppLang, javaLang]
    simp [wsSetup, hf, hmt, hwl, hwm, hww, hnc]

/-- Concrete native-mode evaluation for native_fallback_C10. -/
theorem native_fallback_C10_witness :
    executeNative okEnv goLang [] [] =
      ⟨⟨[], nativeUnsupportedMsg, false⟩, true, false, [], 0⟩ :=
  (native_fallback_C10 okEnv [] [] rfl rfl).2.2.2.1 goLang (Or.inl rfl)

end CodeRunner
